import Mathlib

/-!
Verification of the `mcp-md-mmd-pdf` conversion server.

The development shallowly embeds the TypeScript sources:

* `src/types.ts`   — the option/result records (`ConversionOptions`,
  `ConversionResult`, `MermaidConversionOptions`, `MermaidConversionResult`);
* `src/converter.ts` — the three conversion operations, the overridden
  `marked` code renderer, the HTML document templates, and the default CSS;
* `src/index.ts`   — the tool front-end (argument validation, dispatch and
  response shaping).

Effectful external collaborators (file system, `marked`, Puppeteer) are
modelled by an environment record supplying the outcome (`Except`) of every
awaited external step of an invocation, so each operation becomes a total
function from its options and such an environment to its result.  The
in-page readiness predicates passed to `page.waitForFunction` are embedded
as boolean functions over an abstract DOM state (the list of elements
matching the `.mermaid` selector), and `waitForFunction` itself as a
bounded poll over a time-indexed family of DOM states.  Node's
`path.posix` helpers used to derive the default output path are modelled
at the character-list level, faithful to their documented semantics.
-/

set_option maxRecDepth 4000

/-- Options for converting Markdown to PDF (src/types.ts `ConversionOptions`);
optional fields become `Option`. -/
structure ConversionOptions where
  inputPath : String
  outputPath : Option String
  customCSS : Option String
deriving Repr, DecidableEq

/-- Result of a Markdown conversion (src/types.ts `ConversionResult`). -/
structure ConversionResult where
  success : Bool
  outputPath : Option String
  error : Option String
deriving Repr, DecidableEq

/-- Options for a standalone Mermaid conversion
(src/types.ts `MermaidConversionOptions`). -/
structure MermaidConversionOptions where
  mermaidCode : String
  outputPath : String
deriving Repr, DecidableEq

/-- Result of a standalone Mermaid conversion
(src/types.ts `MermaidConversionResult`). -/
structure MermaidConversionResult where
  success : Bool
  outputPath : Option String
  error : Option String
deriving Repr, DecidableEq

/-- Global replacement of one character by a string, at the character
level (the JavaScript `text.replace(/c/g, r)` for a single-character
pattern). -/
def replaceChar (pattern : Char) (replacement : List Char) : List Char → List Char
  | [] => []
  | c :: rest => (if c = pattern then replacement else [c]) ++ replaceChar pattern replacement rest

/-- HTML-escaping applied to non-mermaid code blocks
(src/converter.ts line 101): replace all `&`, then all `<`, then all `>`. -/
def escapeHtml (text : String) : String :=
  String.mk (replaceChar '>' "&gt;".data
    (replaceChar '<' "&lt;".data
      (replaceChar '&' "&amp;".data text.data)))

/-- The overridden `renderer.code` rule installed on `marked`
(src/converter.ts lines 94-103).  `lang` is `none` when the fenced block
carries no info string; the JavaScript truthiness test `lang ?` treats the
empty string like an absent tag. -/
def rendererCode (text : String) (lang : Option String) (escaped : Bool) : String :=
  if lang = some "mermaid" then
    "<div class=\"mermaid\">\n" ++ text ++ "\n</div>\n"
  else
    let langClass :=
      match lang with
      | some l => if l = "" then "" else " class=\"language-" ++ l ++ "\""
      | none => ""
    let code := if escaped then text else escapeHtml text
    "<pre><code" ++ langClass ++ ">" ++ code ++ "</code></pre>\n"

/-- The default stylesheet (src/converter.ts `DEFAULT_CSS`, lines 10-79),
reproduced verbatim (braces and apostrophes written as hex escapes). -/
def DEFAULT_CSS : String :=
  "\n  body \x7b\n    font-family: -apple-system, BlinkMacSystemFont, \x27Segoe UI\x27, Roboto, \x27Helvetica Neue\x27, Arial, sans-serif;\n    line-height: 1.6;\n    color: #333;\n    max-width: 900px;\n    margin: 0 auto;\n    padding: 2rem;\n  \x7d\n\n  h1, h2, h3, h4, h5, h6 \x7b\n    margin-top: 1.5em;\n    margin-bottom: 0.5em;\n    font-weight: 600;\n  \x7d\n\n  h1 \x7b font-size: 2.5em; border-bottom: 2px solid #eee; padding-bottom: 0.3em; \x7d\n  h2 \x7b font-size: 2em; border-bottom: 1px solid #eee; padding-bottom: 0.3em; \x7d\n  h3 \x7b font-size: 1.5em; \x7d\n\n  code \x7b\n    background-color: #f6f8fa;\n    padding: 0.2em 0.4em;\n    border-radius: 3px;\n    font-family: \x27SFMono-Regular\x27, Consolas, \x27Liberation Mono\x27, Menlo, monospace;\n    font-size: 0.9em;\n  \x7d\n\n  pre \x7b\n    background-color: #f6f8fa;\n    padding: 1em;\n    border-radius: 6px;\n    overflow-x: auto;\n  \x7d\n\n  pre code \x7b\n    background-color: transparent;\n    padding: 0;\n  \x7d\n\n  blockquote \x7b\n    border-left: 4px solid #ddd;\n    padding-left: 1em;\n    color: #666;\n    margin-left: 0;\n  \x7d\n\n  table \x7b\n    border-collapse: collapse;\n    width: 100%;\n    margin: 1em 0;\n  \x7d\n\n  table th, table td \x7b\n    border: 1px solid #ddd;\n    padding: 0.5em;\n    text-align: left;\n  \x7d\n\n  table th \x7b\n    background-color: #f6f8fa;\n    font-weight: 600;\n  \x7d\n\n  .mermaid \x7b\n    display: flex;\n    justify-content: center;\n    margin: 2em 0;\n  \x7d\n"

/-- The fixed part of the full-document template that precedes the
interpolated `DEFAULT_CSS` (src/converter.ts lines 178-193). -/
def htmlDocHead : String :=
  "<!DOCTYPE html>\n<html lang=\"en\">\n<head>\n  <meta charset=\"UTF-8\">\n  <meta name=\"viewport\" content=\"width=device-width, initial-scale=1.0\">\n  <title>Markdown to PDF</title>\n  <script type=\"module\">\n    import mermaid from \x27https://cdn.jsdelivr.net/npm/mermaid@11/dist/mermaid.esm.min.mjs\x27;\n    mermaid.initialize(\x7b\n      startOnLoad: true,\n      theme: \x27default\x27,\n      securityLevel: \x27loose\x27\n    \x7d);\n  </script>\n  <style>\n    "

/-- The fixed part of the full-document template between the custom CSS and
the interpolated body (src/converter.ts lines 195-198). -/
def htmlDocMid : String :=
  "\n  </style>\n</head>\n<body>\n  "

/-- The fixed tail of the full-document template
(src/converter.ts lines 199-200). -/
def htmlDocTail : String :=
  "\n</body>\n</html>"

/-- The full HTML document assembled for the Markdown path
(src/converter.ts `createHTMLDocument`, lines 177-201): head, default CSS,
the interpolation separator, `customCSS || \x27\x27`, then the body. -/
def createHTMLDocument (bodyHTML : String) (customCSS : Option String) : String :=
  htmlDocHead ++ DEFAULT_CSS ++ "\n    " ++ customCSS.getD "" ++ htmlDocMid ++ bodyHTML ++ htmlDocTail

/-- The fixed head of the diagram-only template
(src/converter.ts lines 207-237). -/
def mermaidDocHead : String :=
  "<!DOCTYPE html>\n<html lang=\"en\">\n<head>\n  <meta charset=\"UTF-8\">\n  <meta name=\"viewport\" content=\"width=device-width, initial-scale=1.0\">\n  <title>Mermaid Diagram</title>\n  <script type=\"module\">\n    import mermaid from \x27https://cdn.jsdelivr.net/npm/mermaid@11/dist/mermaid.esm.min.mjs\x27;\n    mermaid.initialize(\x7b\n      startOnLoad: true,\n      theme: \x27default\x27,\n      securityLevel: \x27loose\x27\n    \x7d);\n  </script>\n  <style>\n    body \x7b\n      margin: 0;\n      padding: 20px;\n      display: flex;\n      justify-content: center;\n      align-items: center;\n      min-height: 100vh;\n      background: white;\n    \x7d\n    .mermaid \x7b\n      max-width: 100%;\n    \x7d\n  </style>\n</head>\n<body>\n  <div class=\"mermaid\">\n"

/-- The fixed tail of the diagram-only template
(src/converter.ts lines 239-241). -/
def mermaidDocTail : String :=
  "\n  </div>\n</body>\n</html>"

/-- The diagram-only HTML document
(src/converter.ts `createMermaidOnlyHTML`, lines 206-242). -/
def createMermaidOnlyHTML (mermaidCode : String) : String :=
  mermaidDocHead ++ mermaidCode ++ mermaidDocTail

/-- Abstract view of one element matching the `.mermaid` selector: whether
`el.querySelector(\x27svg\x27)` is non-null. -/
structure MermaidElement where
  hasSvgChild : Bool
deriving Repr, DecidableEq

/-- The readiness predicate string passed to `page.waitForFunction` by
`convertMarkdownToPDF` (src/converter.ts lines 134-142): vacuously true
when no `.mermaid` element exists, otherwise every such element must have
an `svg` child. -/
def markdownReadiness (els : List MermaidElement) : Bool :=
  if els.length = 0 then true
  else els.all (fun el => el.hasSvgChild)

/-- The readiness predicate string passed to `page.waitForFunction` by the
two standalone-diagram operations (src/converter.ts lines 268-273 and
328-333): `document.querySelector(\x27.mermaid\x27)` yields the first match or
null; false when absent, otherwise the container must have an `svg` child. -/
def mermaidOnlyReadiness (els : List MermaidElement) : Bool :=
  match els.head? with
  | none => false
  | some el => el.hasSvgChild

/-- The rendering deadline, in milliseconds
(src/converter.ts `timeout: 30000`). -/
def renderTimeoutMs : Nat := 30000

/-- Error message produced when the readiness poll exhausts its deadline
(Puppeteer's waitForFunction timeout rejection). -/
def timeoutMessage : String := "Waiting failed: 30000ms exceeded"

/-- Bounded poll of a readiness predicate over a time-indexed family of DOM
states: models Puppeteer `waitForFunction` re-evaluating its predicate
until it is truthy or the deadline elapses. -/
def pollLoop (pred : List MermaidElement → Bool) (states : Nat → List MermaidElement) :
    Nat → Nat → Except String Unit
  | t, 0 => if pred (states t) then Except.ok () else Except.error timeoutMessage
  | t, fuel + 1 => if pred (states t) then Except.ok () else pollLoop pred states (t + 1) fuel

/-- Model of `page.waitForFunction(pred, \x7b timeout: 30000 \x7d)`. -/
def waitForFunctionModel (pred : List MermaidElement → Bool)
    (states : Nat → List MermaidElement) : Except String Unit :=
  pollLoop pred states 0 renderTimeoutMs

/-- Outcomes of the awaited external steps of one `convertMarkdownToPDF`
invocation (file system, `marked`, Puppeteer), in source order; the DOM
evolution seen by the readiness poll is the `domStates` family. -/
structure MdEnv where
  readFileResult : Except String String
  markedResult : Except String String
  launchResult : Except String Unit
  newPageResult : Except String Unit
  setContentResult : Except String Unit
  domStates : Nat → List MermaidElement
  pdfResult : Except String Unit
  closeResult : Except String Unit

/-- Outcomes of the awaited external steps of one standalone-diagram
conversion (`convertMermaidToPNG` / `convertMermaidToPDF`).
`querySvgResult` is the outcome of `page.$(\x27.mermaid svg\x27)` (found or
not); `screenshotResult` is used by the PNG path, `pdfResult` by the PDF
path. -/
structure MermaidEnv where
  launchResult : Except String Unit
  newPageResult : Except String Unit
  setContentResult : Except String Unit
  domStates : Nat → List MermaidElement
  querySvgResult : Except String Bool
  screenshotResult : Except String Unit
  pdfResult : Except String Unit
  closeResult : Except String Unit

/-- JavaScript `try \x7b inner \x7d finally \x7b await close() \x7d` semantics: the
close step always runs; an exception raised by it supersedes the inner
outcome. -/
def withClose (close : Except String Unit) (inner : Except String Unit) : Except String Unit :=
  match close with
  | Except.ok _ => inner
  | Except.error e => Except.error e

/-- Node `path.posix.dirname` applied to the input path is modelled further
below; the default output path keeps the directory and base name and swaps
the extension for `.pdf`. -/
def listOfPdfExt : List Char := ['.', 'p', 'd', 'f']

/-- Strip trailing `/` characters (used by Node's basename/dirname scans). -/
def dropTrailingSlashes (l : List Char) : List Char :=
  (l.reverse.dropWhile (fun c => c = '/')).reverse

/-- The last path component of `l` after ignoring trailing separators
(empty when `l` is empty or all separators). -/
def lastComp (l : List Char) : List Char :=
  ((dropTrailingSlashes l).reverse.takeWhile (fun c => c ≠ '/')).reverse

/-- The suffix of `l` starting at its last `.`, when `l` contains one. -/
def afterLastDot : List Char → Option (List Char)
  | [] => none
  | c :: rest =>
    match afterLastDot rest with
    | some e => some e
    | none => if c = '.' then some (c :: rest) else none

/-- Model of Node `path.posix.extname`: the extension of the last path
component, from its last dot; empty when the component has no dot, when
the only dot is its leading character, or when the component is `..`. -/
def extnameL (l : List Char) : List Char :=
  let b := lastComp l
  if b = ['.', '.'] then []
  else
    match afterLastDot b with
    | none => []
    | some e => if e.length = b.length then [] else e

/-- Model of Node `path.posix.basename(path, suffix)` on the argument
shapes arising here (the suffix is empty or a proper suffix of the last
component): the last component, with the suffix removed when it is a
proper suffix of it, and empty when the suffix equals the whole path. -/
def basenameL (l ext : List Char) : List Char :=
  let b := lastComp l
  if ext = [] then b
  else if ext = l then []
  else if ext <:+ b then (if b = ext then b else b.take (b.length - ext.length))
  else b

/-- Model of Node `path.posix.dirname`: everything before the last
separator of the trailing-separator-stripped path, with Node's special
cases for rootless, root-only and double-root paths. -/
def dirnameL (l : List Char) : List Char :=
  if l.isEmpty then ['.']
  else if (dropTrailingSlashes l).length = (lastComp l).length then
    (if l.head? = some '/' then ['/'] else ['.'])
  else if (dropTrailingSlashes l).length = (lastComp l).length + 1 then ['/']
  else if (dropTrailingSlashes l).length = (lastComp l).length + 2 ∧ l.head? = some '/' then
    ['/', '/']
  else (dropTrailingSlashes l).take
    ((dropTrailingSlashes l).length - (lastComp l).length - 1)

/-- Split a character list on `/`, keeping empty pieces (Node's
`normalizeString` walks separator-delimited segments this way). -/
def splitSlash : List Char → List (List Char)
  | [] => [[]]
  | c :: rest =>
    let r := splitSlash rest
    if c = '/' then [] :: r
    else
      match r with
      | s :: ss => (c :: s) :: ss
      | [] => [[c]]

/-- Join segments with single separators (inverse of `splitSlash` on
clean segment lists). -/
def joinSegs : List (List Char) → List Char
  | [] => []
  | [s] => s
  | s :: rest => s ++ '/' :: joinSegs rest

/-- Node `normalizeString` segment resolution: drop empty and `.` segments
and resolve `..` against a stack, letting `..` escape upward only for
relative paths. -/
def normStack (allowAbove : Bool) (acc : List (List Char)) :
    List (List Char) → List (List Char)
  | [] => acc.reverse
  | s :: rest =>
    if s.isEmpty ∨ s = ['.'] then normStack allowAbove acc rest
    else if s = ['.', '.'] then
      match acc with
      | [] =>
        if allowAbove then normStack allowAbove [s] rest else normStack allowAbove [] rest
      | t :: accTail =>
        if t = ['.', '.'] then
          (if allowAbove then normStack allowAbove (s :: acc) rest
           else normStack allowAbove acc rest)
        else normStack allowAbove accTail rest
    else normStack allowAbove (s :: acc) rest

/-- Model of Node `path.posix.normalize`. -/
def normalizeL (l : List Char) : List Char :=
  if l.isEmpty then ['.']
  else
    let isAbs := l.head? = some '/'
    let trailing := l.getLast? = some '/'
    let core := joinSegs (normStack (!isAbs) [] (splitSlash l))
    if core.isEmpty then
      (if isAbs then ['/'] else if trailing then ['.', '/'] else ['.'])
    else
      (if isAbs then '/' :: core else core) ++ (if trailing then ['/'] else [])

/-- Model of Node `path.posix.join` on two parts: drop empty parts, join
the rest with a separator, and normalize (yielding `.` when nothing is
left). -/
def join2L (a b : List Char) : List Char :=
  if a.isEmpty ∧ b.isEmpty then ['.']
  else normalizeL (if a.isEmpty then b else if b.isEmpty then a else a ++ '/' :: b)

/-- String-level wrapper for `extnameL`. -/
def extname (p : String) : String := String.mk (extnameL p.data)

/-- String-level wrapper for `basenameL`. -/
def basename (p ext : String) : String := String.mk (basenameL p.data ext.data)

/-- String-level wrapper for `dirnameL`. -/
def dirname (p : String) : String := String.mk (dirnameL p.data)

/-- String-level wrapper for `join2L`. -/
def joinPath (a b : String) : String := String.mk (join2L a.data b.data)

/-- The default output path derivation of src/converter.ts lines 112-115:
`path.join(path.dirname(input), path.basename(input, path.extname(input)) + \x27.pdf\x27)`. -/
def defaultOutputPath (inputPath : String) : String :=
  joinPath (dirname inputPath) (basename inputPath (extname inputPath) ++ ".pdf")

/-- The resolved output path of src/converter.ts line 111:
`options.outputPath || <default>`; JavaScript `||` falls through both for
an absent and for an empty-string output path. -/
def resolvedOutputPath (inputPath : String) (outputPath : Option String) : String :=
  match outputPath with
  | some o => if o = "" then defaultOutputPath inputPath else o
  | none => defaultOutputPath inputPath

/-- The browser-session body of `convertMarkdownToPDF`
(src/converter.ts lines 127-157): open a page, set content, await the
readiness poll, write the PDF; every `await` propagates a failure. -/
def mdSession (env : MdEnv) : Except String Unit :=
  match env.newPageResult with
  | Except.error e => Except.error e
  | Except.ok _ =>
    match env.setContentResult with
    | Except.error e => Except.error e
    | Except.ok _ =>
      match waitForFunctionModel markdownReadiness env.domStates with
      | Except.error e => Except.error e
      | Except.ok _ => env.pdfResult

/-- The full `convertMarkdownToPDF` operation (src/converter.ts lines
84-172), instrumented with a flag recording whether the browser close of
the `finally` block ran.  The outer `try/catch` converts every failure
into a `success: false` result. -/
def convertMarkdownToPDFTrace (options : ConversionOptions) (env : MdEnv) :
    ConversionResult × Bool :=
  match env.readFileResult with
  | Except.error e => (⟨false, none, some e⟩, false)
  | Except.ok _content =>
    match env.markedResult with
    | Except.error e => (⟨false, none, some e⟩, false)
    | Except.ok html =>
      let outPath := resolvedOutputPath options.inputPath options.outputPath
      let _fullHTML := createHTMLDocument html options.customCSS
      match env.launchResult with
      | Except.error e => (⟨false, none, some e⟩, false)
      | Except.ok _ =>
        match withClose env.closeResult (mdSession env) with
        | Except.ok _ => (⟨true, some outPath, none⟩, true)
        | Except.error e => (⟨false, none, some e⟩, true)

/-- The result of `convertMarkdownToPDF` as returned to the caller. -/
def convertMarkdownToPDF (options : ConversionOptions) (env : MdEnv) : ConversionResult :=
  (convertMarkdownToPDFTrace options env).1

/-- The browser-session body of `convertMermaidToPNG`
(src/converter.ts lines 261-292): page, content, readiness poll, locate
the rendered `svg` (throwing when absent), screenshot it. -/
def pngSession (env : MermaidEnv) : Except String Unit :=
  match env.newPageResult with
  | Except.error e => Except.error e
  | Except.ok _ =>
    match env.setContentResult with
    | Except.error e => Except.error e
    | Except.ok _ =>
      match waitForFunctionModel mermaidOnlyReadiness env.domStates with
      | Except.error e => Except.error e
      | Except.ok _ =>
        match env.querySvgResult with
        | Except.error e => Except.error e
        | Except.ok false => Except.error "Failed to render Mermaid diagram"
        | Except.ok true => env.screenshotResult

/-- The full `convertMermaidToPNG` operation (src/converter.ts lines
247-302), instrumented with the close flag. -/
def convertMermaidToPNGTrace (options : MermaidConversionOptions) (env : MermaidEnv) :
    MermaidConversionResult × Bool :=
  let _fullHTML := createMermaidOnlyHTML options.mermaidCode
  match env.launchResult with
  | Except.error e => (⟨false, none, some e⟩, false)
  | Except.ok _ =>
    match withClose env.closeResult (pngSession env) with
    | Except.ok _ => (⟨true, some options.outputPath, none⟩, true)
    | Except.error e => (⟨false, none, some e⟩, true)

/-- The result of `convertMermaidToPNG` as returned to the caller. -/
def convertMermaidToPNG (options : MermaidConversionOptions) (env : MermaidEnv) :
    MermaidConversionResult :=
  (convertMermaidToPNGTrace options env).1

/-- The browser-session body of `convertMermaidToPDF`
(src/converter.ts lines 321-353). -/
def pdfSession (env : MermaidEnv) : Except String Unit :=
  match env.newPageResult with
  | Except.error e => Except.error e
  | Except.ok _ =>
    match env.setContentResult with
    | Except.error e => Except.error e
    | Except.ok _ =>
      match waitForFunctionModel mermaidOnlyReadiness env.domStates with
      | Except.error e => Except.error e
      | Except.ok _ => env.pdfResult

/-- The full `convertMermaidToPDF` operation (src/converter.ts lines
307-363), instrumented with the close flag. -/
def convertMermaidToPDFTrace (options : MermaidConversionOptions) (env : MermaidEnv) :
    MermaidConversionResult × Bool :=
  let _fullHTML := createMermaidOnlyHTML options.mermaidCode
  match env.launchResult with
  | Except.error e => (⟨false, none, some e⟩, false)
  | Except.ok _ =>
    match withClose env.closeResult (pdfSession env) with
    | Except.ok _ => (⟨true, some options.outputPath, none⟩, true)
    | Except.error e => (⟨false, none, some e⟩, true)

/-- The result of `convertMermaidToPDF` as returned to the caller. -/
def convertMermaidToPDF (options : MermaidConversionOptions) (env : MermaidEnv) :
    MermaidConversionResult :=
  (convertMermaidToPDFTrace options env).1

/-- The (untyped) argument object of a tool-invocation request as read by
the handler of src/index.ts; every field may be absent. -/
structure CallArgs where
  input_path : Option String
  output_path : Option String
  custom_css : Option String
  mermaid_code : Option String
deriving Repr, DecidableEq

/-- JavaScript truthiness of an optional string: absent and empty are both
falsy. -/
def truthy : Option String → Bool
  | none => false
  | some s => !(s == "")

/-- What the CallTool handler decides to do before any conversion runs:
reject with a validation message, invoke one of the three operations, or
report an unknown tool. -/
inductive HandlerAction where
  | reject (message : String)
  | invokeMd (options : ConversionOptions)
  | invokePng (options : MermaidConversionOptions)
  | invokePdf (options : MermaidConversionOptions)
  | unknownTool (name : String)
deriving Repr, DecidableEq

/-- The dispatch-and-validate phase of the `CallToolRequestSchema` handler
(src/index.ts lines 122-274): required-argument checks use JavaScript
truthiness (`!args.input_path`, `!args.mermaid_code || !args.output_path`)
and short-circuit before the conversion operation is reached. -/
def dispatchCallTool (name : String) (args : CallArgs) : HandlerAction :=
  if name = "convert_md_to_pdf" then
    if !(truthy args.input_path) then HandlerAction.reject "Error: input_path is required"
    else
      HandlerAction.invokeMd
        ⟨args.input_path.getD "", args.output_path, args.custom_css⟩
  else if name = "convert_mermaid_to_png" then
    if !(truthy args.mermaid_code) || !(truthy args.output_path) then
      HandlerAction.reject "Error: mermaid_code and output_path are required"
    else
      HandlerAction.invokePng ⟨args.mermaid_code.getD "", args.output_path.getD ""⟩
  else if name = "convert_mermaid_to_pdf" then
    if !(truthy args.mermaid_code) || !(truthy args.output_path) then
      HandlerAction.reject "Error: mermaid_code and output_path are required"
    else
      HandlerAction.invokePdf ⟨args.mermaid_code.getD "", args.output_path.getD ""⟩
  else HandlerAction.unknownTool name

/-- Response record delivered back over the protocol: the text content and
the `isError` flag (absent in the source's success responses, hence
`false`). -/
structure ToolResponse where
  text : String
  isError : Bool
deriving Repr, DecidableEq

/-- Response shaping of the handler (src/index.ts lines 130-274),
parameterized by the three conversion operations so that rejection paths
are visibly independent of them. -/
def respond (action : HandlerAction)
    (runMd : ConversionOptions → ConversionResult)
    (runPng : MermaidConversionOptions → MermaidConversionResult)
    (runPdf : MermaidConversionOptions → MermaidConversionResult) : ToolResponse :=
  match action with
  | HandlerAction.reject msg => ⟨msg, true⟩
  | HandlerAction.unknownTool n => ⟨"Unknown tool: " ++ n, true⟩
  | HandlerAction.invokeMd o =>
    let r := runMd o
    if r.success then
      ⟨"Successfully converted Markdown to PDF!\nOutput: " ++ r.outputPath.getD "", false⟩
    else ⟨"Conversion failed: " ++ r.error.getD "", true⟩
  | HandlerAction.invokePng o =>
    let r := runPng o
    if r.success then
      ⟨"Successfully converted Mermaid diagram to PNG!\nOutput: " ++ r.outputPath.getD "", false⟩
    else ⟨"Conversion failed: " ++ r.error.getD "", true⟩
  | HandlerAction.invokePdf o =>
    let r := runPdf o
    if r.success then
      ⟨"Successfully converted Mermaid diagram to PDF!\nOutput: " ++ r.outputPath.getD "", false⟩
    else ⟨"Conversion failed: " ++ r.error.getD "", true⟩

/-- Claim-side predicate: a result is a well-formed tagged union — success
with a path and no error, or failure with an error and no path. -/
def exclusiveOutcome (r : ConversionResult) : Prop :=
  (r.success = true ∧ r.outputPath.isSome ∧ r.error = none) ∨
  (r.success = false ∧ r.outputPath = none ∧ r.error.isSome)

/-- Claim-side predicate: tagged-union shape for standalone-diagram
results. -/
def exclusiveMermaidOutcome (r : MermaidConversionResult) : Prop :=
  (r.success = true ∧ r.outputPath.isSome ∧ r.error = none) ∨
  (r.success = false ∧ r.outputPath = none ∧ r.error.isSome)

/-- Claim-side helper: the absolute path with the given directory segments
and final component. -/
def pathOf (segs : List (List Char)) (base : List Char) : List Char :=
  '/' :: joinSegs (segs ++ [base])

/-- Claim-side predicate: a clean directory segment — nonempty, not a
navigation segment, separator-free. -/
def goodSeg (s : List Char) : Prop :=
  s ≠ [] ∧ s ≠ ['.'] ∧ s ≠ ['.', '.'] ∧ '/' ∉ s

theorem pollLoop_never (pred : List MermaidElement → Bool) (states : Nat → List MermaidElement)
    (h : ∀ t, pred (states t) = false) :
    ∀ fuel t, pollLoop pred states t fuel = Except.error timeoutMessage := by
  intro fuel
  induction fuel with
  | zero => intro t; simp [pollLoop, h t]
  | succ n ih => intro t; simp [pollLoop, h t, ih]

theorem markdownReadiness_false (els : List MermaidElement) (hne : els ≠ [])
    (h : ∀ el ∈ els, el.hasSvgChild = false) : markdownReadiness els = false := by
  obtain ⟨a, as, rfl⟩ := List.exists_cons_of_ne_nil hne
  simp [markdownReadiness, h a (by simp)]

theorem mermaidOnlyReadiness_false (els : List MermaidElement)
    (h : ∀ el ∈ els, el.hasSvgChild = false) : mermaidOnlyReadiness els = false := by
  cases els with
  | nil => rfl
  | cons a as => simp [mermaidOnlyReadiness, h a (by simp)]

theorem withClose_ok (close inner : Except String Unit) (v : Unit)
    (h : withClose close inner = Except.ok v) : inner = Except.ok v := by
  unfold withClose at h
  split at h
  · exact h
  · exact absurd h (by simp)

theorem mdSession_not_ok (env : MdEnv) (m : String)
    (hw : waitForFunctionModel markdownReadiness env.domStates = Except.error m) (u : Unit) :
    mdSession env ≠ Except.ok u := by
  unfold mdSession
  rw [hw]
  repeat' split
  all_goals simp_all

theorem pngSession_not_ok (env : MermaidEnv) (m : String)
    (hw : waitForFunctionModel mermaidOnlyReadiness env.domStates = Except.error m) (u : Unit) :
    pngSession env ≠ Except.ok u := by
  unfold pngSession
  rw [hw]
  repeat' split
  all_goals simp_all

theorem pdfSession_not_ok (env : MermaidEnv) (m : String)
    (hw : waitForFunctionModel mermaidOnlyReadiness env.domStates = Except.error m) (u : Unit) :
    pdfSession env ≠ Except.ok u := by
  unfold pdfSession
  rw [hw]
  repeat' split
  all_goals simp_all

/-- C1: every invocation of each of the three conversion operations, under
every combination of outcomes of the external steps (success or raised
failure at any point), returns normally with a tagged-union result:
`outputPath` is populated exactly when `success` is true and `error`
exactly when `success` is false, never both. -/
theorem conversionResults_are_tagged_unions (opts : ConversionOptions) (env : MdEnv)
    (mopts : MermaidConversionOptions) (penv qenv : MermaidEnv) :
    exclusiveOutcome (convertMarkdownToPDF opts env) ∧
    exclusiveMermaidOutcome (convertMermaidToPNG mopts penv) ∧
    exclusiveMermaidOutcome (convertMermaidToPDF mopts qenv) := by
  refine ⟨?_, ?_, ?_⟩
  · unfold exclusiveOutcome convertMarkdownToPDF convertMarkdownToPDFTrace withClose
    repeat' split
    all_goals simp
  · unfold exclusiveMermaidOutcome convertMermaidToPNG convertMermaidToPNGTrace withClose
    repeat' split
    all_goals simp
  · unfold exclusiveMermaidOutcome convertMermaidToPDF convertMermaidToPDFTrace withClose
    repeat' split
    all_goals simp

/-- C2: a fenced code block tagged `mermaid` is emitted as a
`<div class="mermaid">` wrapping the raw text with no HTML-escaping, for
either value of the `escaped` flag; a block with any other (nonempty)
language tag, as invoked by `marked` for fenced blocks (`escaped` false),
is emitted as a `<pre><code>` block whose body has `&`, `<`, `>` escaped
and whose code element carries `class="language-<tag>"`. -/
theorem rendererCode_mermaid_div_and_escaped_code (text : String) (lang : String)
    (escaped : Bool) (hmm : lang ≠ "mermaid") (hne : lang ≠ "") :
    rendererCode text (some "mermaid") escaped =
      "<div class=\"mermaid\">\n" ++ text ++ "\n</div>\n" ∧
    rendererCode text (some lang) false =
      "<pre><code class=\"language-" ++ lang ++ "\">" ++ escapeHtml text ++ "</code></pre>\n" := by
  constructor
  · simp [rendererCode]
  · have key : ("<pre><code class=\"language-" ++ lang) ++ "\"" ++ ">" =
        ("<pre><code class=\"language-" ++ lang) ++ "\">" := by
      rw [String.append_assoc]
      rfl
    simp [rendererCode, hmm, hne, ← String.append_assoc]
    rw [key]

theorem rendererCode_mermaid_div_and_escaped_code_witness :
    rendererCode "a<b & c" (some "python") false =
      "<pre><code class=\"language-python\">a&lt;b &amp; c</code></pre>\n" := by
  have h := (rendererCode_mermaid_div_and_escaped_code "a<b & c" "python" false
      (by decide) (by decide)).2
  rw [h]
  rfl

/-- C4: a tool call missing a required argument (no `input_path` for
`convert_md_to_pdf`; no `mermaid_code` or no `output_path` for the two
diagram tools) is rejected with `isError: true` and a descriptive message,
and the dispatch decision is a rejection — not an invocation — so the
response is the same for every possible conversion implementation (no
conversion, hence no browser launch, takes place). -/
theorem missing_required_args_short_circuit (args : CallArgs)
    (runMd : ConversionOptions → ConversionResult)
    (runPng runPdf : MermaidConversionOptions → MermaidConversionResult) :
    (args.input_path = none →
      dispatchCallTool "convert_md_to_pdf" args =
        HandlerAction.reject "Error: input_path is required" ∧
      respond (dispatchCallTool "convert_md_to_pdf" args) runMd runPng runPdf =
        ⟨"Error: input_path is required", true⟩) ∧
    (args.mermaid_code = none ∨ args.output_path = none →
      dispatchCallTool "convert_mermaid_to_png" args =
        HandlerAction.reject "Error: mermaid_code and output_path are required" ∧
      respond (dispatchCallTool "convert_mermaid_to_png" args) runMd runPng runPdf =
        ⟨"Error: mermaid_code and output_path are required", true⟩) ∧
    (args.mermaid_code = none ∨ args.output_path = none →
      dispatchCallTool "convert_mermaid_to_pdf" args =
        HandlerAction.reject "Error: mermaid_code and output_path are required" ∧
      respond (dispatchCallTool "convert_mermaid_to_pdf" args) runMd runPng runPdf =
        ⟨"Error: mermaid_code and output_path are required", true⟩) := by
  refine ⟨?_, ?_, ?_⟩
  · intro h
    have hd : dispatchCallTool "convert_md_to_pdf" args =
        HandlerAction.reject "Error: input_path is required" := by
      simp [dispatchCallTool, truthy, h]
    exact ⟨hd, by rw [hd]; rfl⟩
  · rintro (h | h) <;>
    · have hd : dispatchCallTool "convert_mermaid_to_png" args =
          HandlerAction.reject "Error: mermaid_code and output_path are required" := by
        simp [dispatchCallTool, truthy, h]
      exact ⟨hd, by rw [hd]; rfl⟩
  · rintro (h | h) <;>
    · have hd : dispatchCallTool "convert_mermaid_to_pdf" args =
          HandlerAction.reject "Error: mermaid_code and output_path are required" := by
        simp [dispatchCallTool, truthy, h]
      exact ⟨hd, by rw [hd]; rfl⟩

theorem missing_required_args_short_circuit_witness :
    dispatchCallTool "convert_md_to_pdf" ⟨none, none, none, none⟩ =
      HandlerAction.reject "Error: input_path is required" ∧
    dispatchCallTool "convert_mermaid_to_png" ⟨none, none, none, none⟩ =
      HandlerAction.reject "Error: mermaid_code and output_path are required" ∧
    dispatchCallTool "convert_mermaid_to_pdf" ⟨none, none, none, none⟩ =
      HandlerAction.reject "Error: mermaid_code and output_path are required" := by
  have h := missing_required_args_short_circuit ⟨none, none, none, none⟩
    (fun _ => ⟨false, none, some "e"⟩) (fun _ => ⟨false, none, some "e"⟩)
    (fun _ => ⟨false, none, some "e"⟩)
  exact ⟨(h.1 rfl).1, (h.2.1 (Or.inl rfl)).1, (h.2.2 (Or.inr rfl)).1⟩

/-- C5: the Markdown-path readiness predicate is vacuously true on a
document with no diagram containers — so its bounded poll succeeds on the
first evaluation and the operation proceeds to capture — while the
standalone-diagram readiness predicate is false when no diagram container
exists. -/
theorem readiness_vacuous_for_markdown_false_for_diagram :
    markdownReadiness [] = true ∧
    waitForFunctionModel markdownReadiness (fun _ => []) = Except.ok () ∧
    mermaidOnlyReadiness [] = false := ⟨rfl, rfl, rfl⟩

/-- C6: when the diagram source never produces a rendered `svg` element —
the DOM family contains a diagram container without an `svg` child at
every instant for the Markdown path, and no container with an `svg` child
for the standalone paths — every readiness poll is exhausted at its
30000 ms deadline and all three operations return `success: false` with an
error message; the poll is a bounded recursion, so no operation hangs. -/
theorem unrendered_diagram_fails_within_deadline (opts : ConversionOptions) (env : MdEnv)
    (mopts : MermaidConversionOptions) (penv qenv : MermaidEnv)
    (hmd : ∀ t, env.domStates t ≠ [] ∧ ∀ el ∈ env.domStates t, el.hasSvgChild = false)
    (hpng : ∀ t, ∀ el ∈ penv.domStates t, el.hasSvgChild = false)
    (hpdf : ∀ t, ∀ el ∈ qenv.domStates t, el.hasSvgChild = false) :
    ((convertMarkdownToPDF opts env).success = false ∧
      (convertMarkdownToPDF opts env).error.isSome) ∧
    ((convertMermaidToPNG mopts penv).success = false ∧
      (convertMermaidToPNG mopts penv).error.isSome) ∧
    ((convertMermaidToPDF mopts qenv).success = false ∧
      (convertMermaidToPDF mopts qenv).error.isSome) := by
  have wmd : waitForFunctionModel markdownReadiness env.domStates =
      Except.error timeoutMessage :=
    pollLoop_never _ _ (fun t => markdownReadiness_false _ (hmd t).1 (hmd t).2) _ _
  have wpng : waitForFunctionModel mermaidOnlyReadiness penv.domStates =
      Except.error timeoutMessage :=
    pollLoop_never _ _ (fun t => mermaidOnlyReadiness_false _ (hpng t)) _ _
  have wpdf : waitForFunctionModel mermaidOnlyReadiness qenv.domStates =
      Except.error timeoutMessage :=
    pollLoop_never _ _ (fun t => mermaidOnlyReadiness_false _ (hpdf t)) _ _
  refine ⟨?_, ?_, ?_⟩
  · unfold convertMarkdownToPDF convertMarkdownToPDFTrace
    cases hrf : env.readFileResult with
    | error e => simp
    | ok c =>
      cases hmk : env.markedResult with
      | error e => simp
      | ok h =>
        cases hl : env.launchResult with
        | error e => simp
        | ok u =>
          cases hwc : withClose env.closeResult (mdSession env) with
          | ok v => exact absurd (withClose_ok _ _ _ hwc) (mdSession_not_ok env _ wmd v)
          | error e => simp
  · unfold convertMermaidToPNG convertMermaidToPNGTrace
    cases hl : penv.launchResult with
    | error e => simp
    | ok u =>
      cases hwc : withClose penv.closeResult (pngSession penv) with
      | ok v => exact absurd (withClose_ok _ _ _ hwc) (pngSession_not_ok penv _ wpng v)
      | error e => simp
  · unfold convertMermaidToPDF convertMermaidToPDFTrace
    cases hl : qenv.launchResult with
    | error e => simp
    | ok u =>
      cases hwc : withClose qenv.closeResult (pdfSession qenv) with
      | ok v => exact absurd (withClose_ok _ _ _ hwc) (pdfSession_not_ok qenv _ wpdf v)
      | error e => simp

theorem unrendered_diagram_fails_within_deadline_witness :
    (convertMarkdownToPDF ⟨"/x/doc.md", none, none⟩
        ⟨Except.ok "c", Except.ok "h", Except.ok (), Except.ok (), Except.ok (),
          fun _ => [⟨false⟩], Except.ok (), Except.ok ()⟩).success = false ∧
    (convertMermaidToPNG ⟨"graph TD", "/out.png"⟩
        ⟨Except.ok (), Except.ok (), Except.ok (), fun _ => [], Except.ok true,
          Except.ok (), Except.ok (), Except.ok ()⟩).success = false := by
  have h := unrendered_diagram_fails_within_deadline ⟨"/x/doc.md", none, none⟩
    ⟨Except.ok "c", Except.ok "h", Except.ok (), Except.ok (), Except.ok (),
      fun _ => [⟨false⟩], Except.ok (), Except.ok ()⟩
    ⟨"graph TD", "/out.png"⟩
    ⟨Except.ok (), Except.ok (), Except.ok (), fun _ => [], Except.ok true,
      Except.ok (), Except.ok (), Except.ok ()⟩
    ⟨Except.ok (), Except.ok (), Except.ok (), fun _ => [], Except.ok true,
      Except.ok (), Except.ok (), Except.ok ()⟩
    (fun t => ⟨by simp, by intro el h; simp at h; subst h; rfl⟩)
    (fun t => by intro el h; exact absurd h (List.not_mem_nil el))
    (fun t => by intro el h; exact absurd h (List.not_mem_nil el))
  exact ⟨h.1.1, h.2.1.1⟩

/-- C7: in every execution in which the browser process is successfully
acquired (for the Markdown path: the input read, the Markdown transform
and the launch all succeeded; for the standalone paths: the launch
succeeded), the close step of the `finally` block runs before the
operation returns, whatever the outcomes of the page, render-wait and
capture steps. -/
theorem browser_closed_whenever_acquired (opts : ConversionOptions) (env : MdEnv)
    (mopts : MermaidConversionOptions) (penv qenv : MermaidEnv)
    (hr : ∃ s, env.readFileResult = Except.ok s)
    (hm : ∃ s, env.markedResult = Except.ok s)
    (h1 : env.launchResult = Except.ok ()) (h2 : penv.launchResult = Except.ok ())
    (h3 : qenv.launchResult = Except.ok ()) :
    (convertMarkdownToPDFTrace opts env).2 = true ∧
    (convertMermaidToPNGTrace mopts penv).2 = true ∧
    (convertMermaidToPDFTrace mopts qenv).2 = true := by
  obtain ⟨s, hr⟩ := hr
  obtain ⟨m, hm⟩ := hm
  refine ⟨?_, ?_, ?_⟩
  · unfold convertMarkdownToPDFTrace
    rw [hr, hm, h1]
    repeat' split
    all_goals simp_all
  · unfold convertMermaidToPNGTrace
    rw [h2]
    repeat' split
    all_goals simp_all
  · unfold convertMermaidToPDFTrace
    rw [h3]
    repeat' split
    all_goals simp_all

theorem browser_closed_whenever_acquired_witness :
    (convertMarkdownToPDFTrace ⟨"/x/doc.md", none, none⟩
      ⟨Except.ok "c", Except.ok "h", Except.ok (), Except.error "page failed",
        Except.ok (), fun _ => [], Except.ok (), Except.ok ()⟩).2 = true ∧
    (convertMermaidToPNGTrace ⟨"graph TD", "/out.png"⟩
      ⟨Except.ok (), Except.error "page failed", Except.ok (), fun _ => [⟨true⟩],
        Except.ok true, Except.ok (), Except.ok (), Except.ok ()⟩).2 = true ∧
    (convertMermaidToPDFTrace ⟨"graph TD", "/out.pdf"⟩
      ⟨Except.ok (), Except.error "page failed", Except.ok (), fun _ => [⟨true⟩],
        Except.ok true, Except.ok (), Except.ok (), Except.ok ()⟩).2 = true :=
  browser_closed_whenever_acquired ⟨"/x/doc.md", none, none⟩
    ⟨Except.ok "c", Except.ok "h", Except.ok (), Except.error "page failed",
      Except.ok (), fun _ => [], Except.ok (), Except.ok ()⟩
    ⟨"graph TD", "/out.png"⟩
    ⟨Except.ok (), Except.error "page failed", Except.ok (), fun _ => [⟨true⟩],
      Except.ok true, Except.ok (), Except.ok (), Except.ok ()⟩
    ⟨Except.ok (), Except.error "page failed", Except.ok (), fun _ => [⟨true⟩],
      Except.ok true, Except.ok (), Except.ok (), Except.ok ()⟩
    ⟨"c", rfl⟩ ⟨"h", rfl⟩ rfl rfl rfl

/-- C8: the document assembled with caller-supplied CSS places the full
default stylesheet first and the supplied CSS text verbatim immediately
after it (separated only by the template's fixed whitespace) in the style
section: no default rule is discarded and the supplied CSS is neither
modified nor validated. -/
theorem createHTMLDocument_appends_custom_css_after_defaults (bodyHTML css : String) :
    createHTMLDocument bodyHTML (some css) =
      htmlDocHead ++ DEFAULT_CSS ++ "\n    " ++ css ++ htmlDocMid ++ bodyHTML ++ htmlDocTail := rfl

/-- C9: a required string argument supplied as the empty string is treated
exactly like an absent argument — JavaScript truthiness rejects it with
the same missing-argument message, the dispatch decision is a rejection,
and the response is independent of the conversion implementations (no
operation is invoked). -/
theorem empty_string_args_treated_as_missing (args : CallArgs)
    (runMd : ConversionOptions → ConversionResult)
    (runPng runPdf : MermaidConversionOptions → MermaidConversionResult) :
    (args.input_path = some "" →
      dispatchCallTool "convert_md_to_pdf" args =
        HandlerAction.reject "Error: input_path is required" ∧
      respond (dispatchCallTool "convert_md_to_pdf" args) runMd runPng runPdf =
        ⟨"Error: input_path is required", true⟩) ∧
    (args.mermaid_code = some "" ∨ args.output_path = some "" →
      dispatchCallTool "convert_mermaid_to_png" args =
        HandlerAction.reject "Error: mermaid_code and output_path are required" ∧
      respond (dispatchCallTool "convert_mermaid_to_png" args) runMd runPng runPdf =
        ⟨"Error: mermaid_code and output_path are required", true⟩) ∧
    (args.mermaid_code = some "" ∨ args.output_path = some "" →
      dispatchCallTool "convert_mermaid_to_pdf" args =
        HandlerAction.reject "Error: mermaid_code and output_path are required" ∧
      respond (dispatchCallTool "convert_mermaid_to_pdf" args) runMd runPng runPdf =
        ⟨"Error: mermaid_code and output_path are required", true⟩) := by
  refine ⟨?_, ?_, ?_⟩
  · intro h
    have hd : dispatchCallTool "convert_md_to_pdf" args =
        HandlerAction.reject "Error: input_path is required" := by
      simp [dispatchCallTool, truthy, h]
    exact ⟨hd, by rw [hd]; rfl⟩
  · rintro (h | h) <;>
    · have hd : dispatchCallTool "convert_mermaid_to_png" args =
          HandlerAction.reject "Error: mermaid_code and output_path are required" := by
        simp [dispatchCallTool, truthy, h]
      exact ⟨hd, by rw [hd]; rfl⟩
  · rintro (h | h) <;>
    · have hd : dispatchCallTool "convert_mermaid_to_pdf" args =
          HandlerAction.reject "Error: mermaid_code and output_path are required" := by
        simp [dispatchCallTool, truthy, h]
      exact ⟨hd, by rw [hd]; rfl⟩

theorem empty_string_args_treated_as_missing_witness :
    dispatchCallTool "convert_md_to_pdf" ⟨some "", some "/o.pdf", none, none⟩ =
      HandlerAction.reject "Error: input_path is required" ∧
    dispatchCallTool "convert_mermaid_to_png" ⟨none, some "", none, some "graph TD"⟩ =
      HandlerAction.reject "Error: mermaid_code and output_path are required" ∧
    dispatchCallTool "convert_mermaid_to_pdf" ⟨none, some "/o.pdf", none, some ""⟩ =
      HandlerAction.reject "Error: mermaid_code and output_path are required" := by
  refine ⟨?_, ?_, ?_⟩
  · exact ((empty_string_args_treated_as_missing ⟨some "", some "/o.pdf", none, none⟩
      (fun _ => ⟨false, none, some "e"⟩) (fun _ => ⟨false, none, some "e"⟩)
      (fun _ => ⟨false, none, some "e"⟩)).1 rfl).1
  · exact ((empty_string_args_treated_as_missing ⟨none, some "", none, some "graph TD"⟩
      (fun _ => ⟨false, none, some "e"⟩) (fun _ => ⟨false, none, some "e"⟩)
      (fun _ => ⟨false, none, some "e"⟩)).2.1 (Or.inr rfl)).1
  · exact ((empty_string_args_treated_as_missing ⟨none, some "/o.pdf", none, some ""⟩
      (fun _ => ⟨false, none, some "e"⟩) (fun _ => ⟨false, none, some "e"⟩)
      (fun _ => ⟨false, none, some "e"⟩)).2.2 (Or.inl rfl)).1

/-- C10: an output path supplied as the empty string is falsy for the
`||` fallback, so the operation resolves the same derived default path as
when no output path was supplied at all; the empty string is never used
as the target path. -/
theorem empty_output_path_falls_back_to_default (inputPath : String) :
    resolvedOutputPath inputPath (some "") = defaultOutputPath inputPath ∧
    resolvedOutputPath inputPath (some "") = resolvedOutputPath inputPath none := ⟨rfl, rfl⟩

theorem dropTrailingSlashes_concat (xs : List Char) (c : Char) (hc : c ≠ '/') :
    dropTrailingSlashes (xs ++ [c]) = xs ++ [c] := by
  unfold dropTrailingSlashes
  rw [List.reverse_append]
  simp [List.dropWhile_cons, hc]

theorem getLast?_ne_slash {l : List Char} (hl : l ≠ []) (hs : '/' ∉ l) :
    ∃ c, l.getLast? = some c ∧ c ≠ '/' := by
  rcases List.eq_nil_or_concat l with rfl | ⟨xs, c, rfl⟩
  · exact absurd rfl hl
  · refine ⟨c, ?_, ?_⟩
    · rw [List.concat_eq_append]
      exact List.getLast?_concat xs
    · intro h
      subst h
      exact hs (by simp)

theorem dropTrailingSlashes_of_getLast {l : List Char} {c : Char} (hc : c ≠ '/')
    (h : l.getLast? = some c) : dropTrailingSlashes l = l := by
  rcases List.eq_nil_or_concat l with rfl | ⟨xs, d, rfl⟩
  · simp at h
  · rw [List.concat_eq_append] at h ⊢
    rw [List.getLast?_concat] at h
    injection h with h2
    subst h2
    exact dropTrailingSlashes_concat xs _ hc

theorem takeWhile_ne_slash_append (xs r : List Char) (h : '/' ∉ xs) :
    (xs ++ '/' :: r).takeWhile (fun c => c ≠ '/') = xs := by
  induction xs with
  | nil =>
    rw [List.nil_append, List.takeWhile_cons]
    rw [if_neg (by simp)]
  | cons x t ih =>
    have hx : x ≠ '/' := fun hh => h (hh ▸ List.mem_cons_self x t)
    have ht : '/' ∉ t := fun hh => h (List.mem_cons_of_mem x hh)
    rw [List.cons_append, List.takeWhile_cons]
    rw [if_pos (by simp [hx])]
    rw [ih ht]

theorem lastComp_append (a b : List Char) (hb : b ≠ []) (hbs : '/' ∉ b) :
    lastComp (a ++ '/' :: b) = b := by
  obtain ⟨c, hcl, hc⟩ := getLast?_ne_slash hb hbs
  have hlast : (a ++ '/' :: b).getLast? = some c := by
    rw [List.getLast?_append_of_ne_nil a (by simp)]
    rw [show ('/' :: b) = ['/'] ++ b from rfl]
    rw [List.getLast?_append_of_ne_nil ['/'] hb]
    exact hcl
  unfold lastComp
  rw [dropTrailingSlashes_of_getLast hc hlast]
  have hrev : (a ++ '/' :: b).reverse = b.reverse ++ '/' :: a.reverse := by
    simp
  rw [hrev]
  rw [takeWhile_ne_slash_append b.reverse a.reverse (by simpa using hbs)]
  exact List.reverse_reverse b

theorem afterLastDot_none {l : List Char} (h : '.' ∉ l) : afterLastDot l = none := by
  induction l with
  | nil => rfl
  | cons c t ih =>
    have hc : c ≠ '.' := fun hh => h (hh ▸ List.mem_cons_self c t)
    have ht : '.' ∉ t := fun hh => h (List.mem_cons_of_mem c hh)
    unfold afterLastDot
    rw [ih ht]
    simp [hc]

theorem afterLastDot_append (nm ex : List Char) (hex : '.' ∉ ex) :
    afterLastDot (nm ++ '.' :: ex) = some ('.' :: ex) := by
  induction nm with
  | nil =>
    rw [List.nil_append]
    simp [afterLastDot, afterLastDot_none hex]
  | cons c t ih =>
    rw [List.cons_append]
    simp [afterLastDot, ih]

theorem joinSegs_append_single (ss : List (List Char)) (b : List Char) (h : ss ≠ []) :
    joinSegs (ss ++ [b]) = joinSegs ss ++ '/' :: b := by
  induction ss with
  | nil => exact absurd rfl h
  | cons s t ih =>
    cases t with
    | nil => simp [joinSegs]
    | cons s2 t2 =>
      rw [List.cons_append]
      rw [show joinSegs (s :: (s2 :: t2 ++ [b])) = s ++ '/' :: joinSegs (s2 :: t2 ++ [b]) from rfl]
      rw [ih (by simp)]
      rw [show joinSegs (s :: s2 :: t2) = s ++ '/' :: joinSegs (s2 :: t2) from rfl]
      simp

theorem joinSegs_ne_nil (ss : List (List Char)) (h : ss ≠ []) (h2 : ∀ s ∈ ss, s ≠ []) :
    joinSegs ss ≠ [] := by
  cases ss with
  | nil => exact absurd rfl h
  | cons s t =>
    cases t with
    | nil => exact h2 s (by simp)
    | cons s2 t2 =>
      rw [show joinSegs (s :: s2 :: t2) = s ++ '/' :: joinSegs (s2 :: t2) from rfl]
      simp

theorem splitSlash_no_slash {l : List Char} (h : '/' ∉ l) : splitSlash l = [l] := by
  induction l with
  | nil => rfl
  | cons c t ih =>
    have hc : c ≠ '/' := fun hh => h (hh ▸ List.mem_cons_self c t)
    have ht : '/' ∉ t := fun hh => h (List.mem_cons_of_mem c hh)
    unfold splitSlash
    rw [ih ht]
    simp [hc]

theorem splitSlash_append (a t : List Char) (h : '/' ∉ a) :
    splitSlash (a ++ '/' :: t) = a :: splitSlash t := by
  induction a with
  | nil =>
    rw [List.nil_append]
    rw [show splitSlash ('/' :: t) = [] :: splitSlash t from rfl]
  | cons c r ih =>
    have hc : c ≠ '/' := fun hh => h (hh ▸ List.mem_cons_self c r)
    have hr : '/' ∉ r := fun hh => h (List.mem_cons_of_mem c hh)
    rw [List.cons_append]
    have step : splitSlash (c :: (r ++ '/' :: t)) =
        if c = '/' then [] :: splitSlash (r ++ '/' :: t)
        else
          match splitSlash (r ++ '/' :: t) with
          | s :: ss => (c :: s) :: ss
          | [] => [[c]] := rfl
    rw [step, ih hr]
    simp [hc]

theorem splitSlash_joinSegs (ss : List (List Char)) (h : ss ≠ [])
    (h2 : ∀ s ∈ ss, '/' ∉ s) : splitSlash (joinSegs ss) = ss := by
  induction ss with
  | nil => exact absurd rfl h
  | cons s t ih =>
    cases t with
    | nil => exact splitSlash_no_slash (h2 s (by simp))
    | cons s2 t2 =>
      rw [show joinSegs (s :: s2 :: t2) = s ++ '/' :: joinSegs (s2 :: t2) from rfl]
      rw [splitSlash_append _ _ (h2 s (by simp))]
      rw [ih (by simp) (fun x hx => h2 x (List.mem_cons_of_mem s hx))]

theorem normStack_clean (ab : Bool) (ss : List (List Char))
    (h : ∀ s ∈ ss, s = [] ∨ goodSeg s) :
    ∀ acc, normStack ab acc ss = acc.reverse ++ ss.filter (fun s => !s.isEmpty) := by
  induction ss with
  | nil => intro acc; simp [normStack]
  | cons s t ih =>
    intro acc
    rcases h s (by simp) with rfl | hg
    · have step : normStack ab acc ([] :: t) = normStack ab acc t := rfl
      rw [step, ih (fun x hx => h x (List.mem_cons_of_mem _ hx)) acc]
      simp
    · obtain ⟨h1, h2, h3, h4⟩ := hg
      have step : normStack ab acc (s :: t) = normStack ab (s :: acc) t := by
        conv_lhs => rw [normStack.eq_def]
        simp [h1, h2, h3]
      rw [step, ih (fun x hx => h x (List.mem_cons_of_mem _ hx)) (s :: acc)]
      simp [h1]

theorem lastComp_pathOf (segs : List (List Char)) (base : List Char)
    (hbne : base ≠ []) (hbs : '/' ∉ base) : lastComp (pathOf segs base) = base := by
  cases segs with
  | nil =>
    rw [show pathOf [] base = [] ++ '/' :: base from rfl]
    exact lastComp_append [] base hbne hbs
  | cons s t =>
    rw [show pathOf (s :: t) base = '/' :: joinSegs ((s :: t) ++ [base]) from rfl]
    rw [joinSegs_append_single (s :: t) base (by simp)]
    rw [show '/' :: (joinSegs (s :: t) ++ '/' :: base) =
        ('/' :: joinSegs (s :: t)) ++ '/' :: base from rfl]
    exact lastComp_append _ base hbne hbs

theorem pathOf_getLast (segs : List (List Char)) (base : List Char)
    (hbne : base ≠ []) (hbs : '/' ∉ base) :
    ∃ c, (pathOf segs base).getLast? = some c ∧ c ≠ '/' := by
  obtain ⟨c, hc1, hc2⟩ := getLast?_ne_slash hbne hbs
  refine ⟨c, ?_, hc2⟩
  cases segs with
  | nil =>
    rw [show pathOf [] base = ['/'] ++ base from rfl]
    rw [List.getLast?_append_of_ne_nil ['/'] hbne]
    exact hc1
  | cons s t =>
    rw [show pathOf (s :: t) base = '/' :: joinSegs ((s :: t) ++ [base]) from rfl]
    rw [joinSegs_append_single (s :: t) base (by simp)]
    rw [show '/' :: (joinSegs (s :: t) ++ '/' :: base) =
        (('/' :: joinSegs (s :: t)) ++ ['/']) ++ base from by simp]
    rw [List.getLast?_append_of_ne_nil _ hbne]
    exact hc1

theorem mem_append_cons_slash {nm ex : List Char} (hnmS : '/' ∉ nm) (hexS : '/' ∉ ex) :
    '/' ∉ nm ++ '.' :: ex := by
  intro hmem
  rcases List.mem_append.mp hmem with h1 | h1
  · exact hnmS h1
  · rcases List.mem_cons.mp h1 with h2 | h2
    · exact absurd h2 (by decide)
    · exact hexS h2

theorem extnameL_pathOf (segs : List (List Char)) (nm ex : List Char)
    (hnm : nm ≠ []) (hnmS : '/' ∉ nm) (hex : ex ≠ []) (hexS : '/' ∉ ex) (hexD : '.' ∉ ex) :
    extnameL (pathOf segs (nm ++ '.' :: ex)) = '.' :: ex := by
  have hbs : '/' ∉ nm ++ '.' :: ex := mem_append_cons_slash hnmS hexS
  have hbne : nm ++ '.' :: ex ≠ [] := by simp
  have hlc := lastComp_pathOf segs (nm ++ '.' :: ex) hbne hbs
  have hdd : nm ++ '.' :: ex ≠ ['.', '.'] := by
    intro hh
    have h1 : (nm ++ '.' :: ex).length = 2 := by rw [hh]; rfl
    simp only [List.length_cons, List.length_append] at h1
    have hnml : 0 < nm.length := List.length_pos.mpr hnm
    have hexl : 0 < ex.length := List.length_pos.mpr hex
    omega
  have hlen : ('.' :: ex).length ≠ (nm ++ '.' :: ex).length := by
    simp only [List.length_cons, List.length_append]
    intro hh
    have h2 : nm.length = 0 := by omega
    exact hnm (List.eq_nil_of_length_eq_zero h2)
  unfold extnameL
  rw [hlc]
  rw [if_neg hdd]
  rw [afterLastDot_append nm ex hexD]
  simp [hlen, hnm]

theorem basenameL_pathOf (segs : List (List Char)) (nm ex : List Char)
    (hnm : nm ≠ []) (hnmS : '/' ∉ nm) (_hex : ex ≠ []) (hexS : '/' ∉ ex) :
    basenameL (pathOf segs (nm ++ '.' :: ex)) ('.' :: ex) = nm := by
  have hbs : '/' ∉ nm ++ '.' :: ex := mem_append_cons_slash hnmS hexS
  have hbne : nm ++ '.' :: ex ≠ [] := by simp
  have hlc := lastComp_pathOf segs (nm ++ '.' :: ex) hbne hbs
  have hnp : ('.' :: ex) ≠ pathOf segs (nm ++ '.' :: ex) := by
    intro hh
    rw [show pathOf segs (nm ++ '.' :: ex) =
        '/' :: joinSegs (segs ++ [nm ++ '.' :: ex]) from rfl] at hh
    injection hh with hh1
    exact absurd hh1 (by decide)
  have hsuf : ('.' :: ex) <:+ nm ++ '.' :: ex := List.suffix_append nm ('.' :: ex)
  have hne2 : nm ++ '.' :: ex ≠ '.' :: ex := by
    intro hh
    have h1 := congrArg List.length hh
    simp only [List.length_cons, List.length_append] at h1
    have h2 : nm.length = 0 := by omega
    exact hnm (List.eq_nil_of_length_eq_zero h2)
  unfold basenameL
  rw [hlc]
  rw [if_neg (by simp : ¬('.' :: ex = ([] : List Char)))]
  rw [if_neg hnp]
  rw [if_pos hsuf]
  rw [if_neg hne2]
  rw [show (nm ++ '.' :: ex).length - ('.' :: ex).length = nm.length from by
    simp only [List.length_cons, List.length_append]
    omega]
  exact List.take_left nm ('.' :: ex)

theorem dirnameL_pathOf (segs : List (List Char)) (base : List Char)
    (hbne : base ≠ []) (hbs : '/' ∉ base) (hgood : ∀ s ∈ segs, goodSeg s) :
    dirnameL (pathOf segs base) = if segs = [] then ['/'] else '/' :: joinSegs segs := by
  obtain ⟨c, hc1, hc2⟩ := pathOf_getLast segs base hbne hbs
  have hdts : dropTrailingSlashes (pathOf segs base) = pathOf segs base :=
    dropTrailingSlashes_of_getLast hc2 hc1
  have hlc := lastComp_pathOf segs base hbne hbs
  cases segs with
  | nil =>
    unfold dirnameL
    rw [hdts, hlc]
    rw [show pathOf [] base = '/' :: base from rfl]
    rw [if_neg (by simp : ¬(('/' :: base).isEmpty = true))]
    rw [if_neg (by simp : ¬(('/' :: base).length = base.length))]
    rw [if_pos (by simp : ('/' :: base).length = base.length + 1)]
    simp
  | cons s t =>
    have hjne : joinSegs (s :: t) ≠ [] := by
      refine joinSegs_ne_nil (s :: t) (by simp) ?_
      intro x hx
      exact (hgood x hx).1
    have hshape : pathOf (s :: t) base = ('/' :: joinSegs (s :: t)) ++ '/' :: base := by
      rw [show pathOf (s :: t) base = '/' :: joinSegs ((s :: t) ++ [base]) from rfl]
      rw [joinSegs_append_single (s :: t) base (by simp)]
      rfl
    have hjpos : 1 ≤ (joinSegs (s :: t)).length := by
      rcases List.eq_nil_or_concat (joinSegs (s :: t)) with hz | ⟨xs, d, hz⟩
      · exact absurd hz hjne
      · rw [hz]
        simp
    have hlen2 : (('/' :: joinSegs (s :: t)) ++ '/' :: base).length =
        base.length + (joinSegs (s :: t)).length + 2 := by
      simp only [List.length_append, List.length_cons]
      omega
    unfold dirnameL
    rw [hdts, hlc, hshape]
    rw [if_neg (by simp : ¬((('/' :: joinSegs (s :: t)) ++ '/' :: base).isEmpty = true))]
    rw [if_neg (by rw [hlen2]; omega)]
    rw [if_neg (by rw [hlen2]; omega)]
    have hb3 : ¬((('/' :: joinSegs (s :: t)) ++ '/' :: base).length = base.length + 2 ∧
        (('/' :: joinSegs (s :: t)) ++ '/' :: base).head? = some '/') := by
      intro hh
      have h4 := hh.1
      rw [hlen2] at h4
      omega
    rw [if_neg hb3]
    rw [show (('/' :: joinSegs (s :: t)) ++ '/' :: base).length - base.length - 1 =
        ('/' :: joinSegs (s :: t)).length from by
      simp only [List.length_append, List.length_cons]
      omega]
    rw [List.take_left]
    simp

theorem normalizeL_spec (rest : List Char) (ss : List (List Char))
    (hsplit : splitSlash rest = ss)
    (hgood : ∀ s ∈ ss, s = [] ∨ goodSeg s)
    (hne : ss.filter (fun s => !s.isEmpty) ≠ [])
    (c : Char) (hc1 : ('/' :: rest).getLast? = some c) (hc2 : c ≠ '/') :
    normalizeL ('/' :: rest) = '/' :: joinSegs (ss.filter (fun s => !s.isEmpty)) := by
  have hfil : ∀ s ∈ ss.filter (fun s => !s.isEmpty), s ≠ [] := by
    intro s hs
    have h2 := List.of_mem_filter hs
    simpa using h2
  have hcore : joinSegs (ss.filter (fun s => !s.isEmpty)) ≠ [] :=
    joinSegs_ne_nil _ hne hfil
  have hss : splitSlash ('/' :: rest) = [] :: ss := by
    rw [show splitSlash ('/' :: rest) = [] :: splitSlash rest from rfl, hsplit]
  have hstack : ∀ ab, normStack ab [] ([] :: ss) = ss.filter (fun s => !s.isEmpty) := by
    intro ab
    have hg : ∀ s ∈ ([] :: ss), s = [] ∨ goodSeg s := by
      intro s hs
      rcases List.mem_cons.mp hs with rfl | hs2
      · exact Or.inl rfl
      · exact hgood s hs2
    rw [normStack_clean ab ([] :: ss) hg []]
    simp
  have htr : ¬(('/' :: rest).getLast? = some '/') := by
    rw [hc1]
    intro hh
    injection hh with hh2
    exact hc2 hh2
  simp only [normalizeL, hss, hstack, List.head?_cons]
  simp [htr, hcore, List.isEmpty_iff]

theorem join2L_dirname (segs : List (List Char)) (nb : List Char)
    (hgood : ∀ s ∈ segs, goodSeg s)
    (hnb1 : nb ≠ []) (hnb2 : '/' ∉ nb) (hnb3 : nb ≠ ['.']) (hnb4 : nb ≠ ['.', '.']) :
    join2L (if segs = [] then ['/'] else '/' :: joinSegs segs) nb = pathOf segs nb := by
  obtain ⟨c, hcl, hcn⟩ := getLast?_ne_slash hnb1 hnb2
  cases segs with
  | nil =>
    rw [if_pos rfl]
    unfold join2L
    rw [if_neg (by simp)]
    rw [if_neg (by simp), if_neg (by simp [hnb1])]
    rw [show (['/'] ++ '/' :: nb) = '/' :: ('/' :: nb) from rfl]
    have hsplit : splitSlash ('/' :: nb) = [] :: [nb] := by
      rw [show splitSlash ('/' :: nb) = [] :: splitSlash nb from rfl]
      rw [splitSlash_no_slash hnb2]
    have hlast : ('/' :: '/' :: nb).getLast? = some c := by
      rw [show ('/' :: '/' :: nb) = ['/', '/'] ++ nb from rfl]
      rw [List.getLast?_append_of_ne_nil _ hnb1]
      exact hcl
    rw [normalizeL_spec ('/' :: nb) ([] :: [nb]) hsplit ?hg ?hn c hlast hcn]
    · simp [List.filter, hnb1, show nb.isEmpty = false from by simp [hnb1]]
      rfl
    case hg =>
      intro s hs
      rcases List.mem_cons.mp hs with rfl | hs2
      · exact Or.inl rfl
      · rcases List.mem_cons.mp hs2 with rfl | hs3
        · exact Or.inr ⟨hnb1, hnb3, hnb4, hnb2⟩
        · cases hs3
    case hn =>
      simp [List.filter, show nb.isEmpty = false from by simp [hnb1]]
  | cons s t =>
    rw [if_neg (by simp)]
    unfold join2L
    rw [if_neg (by simp)]
    rw [if_neg (by simp), if_neg (by simp [hnb1])]
    have hjoin : ('/' :: joinSegs (s :: t)) ++ '/' :: nb =
        '/' :: joinSegs ((s :: t) ++ [nb]) := by
      rw [joinSegs_append_single (s :: t) nb (by simp)]
      rfl
    rw [hjoin]
    have hallgood : ∀ x ∈ (s :: t) ++ [nb], goodSeg x := by
      intro x hx
      rcases List.mem_append.mp hx with h1 | h1
      · exact hgood x h1
      · rcases List.mem_cons.mp h1 with rfl | h2
        · exact ⟨hnb1, hnb3, hnb4, hnb2⟩
        · cases h2
    have hsplit : splitSlash (joinSegs ((s :: t) ++ [nb])) = (s :: t) ++ [nb] := by
      refine splitSlash_joinSegs _ (by simp) ?_
      intro x hx
      exact (hallgood x hx).2.2.2
    have hfilter : ((s :: t) ++ [nb]).filter (fun x => !x.isEmpty) = (s :: t) ++ [nb] := by
      rw [List.filter_eq_self]
      intro x hx
      simp [(hallgood x hx).1]
    have hlast : ('/' :: joinSegs ((s :: t) ++ [nb])).getLast? = some c := by
      rw [← hjoin]
      rw [show ('/' :: joinSegs (s :: t)) ++ '/' :: nb =
          ((('/' :: joinSegs (s :: t)) ++ ['/']) ++ nb) from by simp]
      rw [List.getLast?_append_of_ne_nil _ hnb1]
      exact hcl
    rw [normalizeL_spec (joinSegs ((s :: t) ++ [nb])) ((s :: t) ++ [nb]) hsplit
      (fun x hx => Or.inr (hallgood x hx)) (by rw [hfilter]; simp) c hlast hcn]
    rw [hfilter]
    rfl

theorem defaultOutputPath_lists (segs : List (List Char)) (nm ex : List Char)
    (hsegs : ∀ s ∈ segs, goodSeg s) (hnm : nm ≠ []) (hnmS : '/' ∉ nm)
    (hex : ex ≠ []) (hexS : '/' ∉ ex) (hexD : '.' ∉ ex) :
    join2L (dirnameL (pathOf segs (nm ++ '.' :: ex)))
        (basenameL (pathOf segs (nm ++ '.' :: ex))
          (extnameL (pathOf segs (nm ++ '.' :: ex))) ++ ['.', 'p', 'd', 'f']) =
      pathOf segs (nm ++ ['.', 'p', 'd', 'f']) := by
  have hbs : '/' ∉ nm ++ '.' :: ex := mem_append_cons_slash hnmS hexS
  have hbne : nm ++ '.' :: ex ≠ [] := by simp
  rw [extnameL_pathOf segs nm ex hnm hnmS hex hexS hexD]
  rw [basenameL_pathOf segs nm ex hnm hnmS hex hexS]
  rw [dirnameL_pathOf segs (nm ++ '.' :: ex) hbne hbs hsegs]
  refine join2L_dirname segs (nm ++ ['.', 'p', 'd', 'f']) hsegs (by simp) ?_ ?_ ?_
  · intro hmem
    rcases List.mem_append.mp hmem with h1 | h1
    · exact hnmS h1
    · simp at h1
  · intro hh
    have h1 : (nm ++ ['.', 'p', 'd', 'f']).length = 1 := by rw [hh]; rfl
    simp only [List.length_append, List.length_cons, List.length_nil] at h1
    omega
  · intro hh
    have h1 : (nm ++ ['.', 'p', 'd', 'f']).length = 2 := by rw [hh]; rfl
    simp only [List.length_append, List.length_cons, List.length_nil] at h1
    omega

theorem defaultOutputPath_mk (l : List Char) :
    defaultOutputPath (String.mk l) =
      String.mk (join2L (dirnameL l) (basenameL l (extnameL l) ++ ['.', 'p', 'd', 'f'])) := rfl

/-- C3: for a call with no output path supplied, on an input path made of a
clean absolute directory (any clean segments, none `.`/`..`/empty, no
separator inside a segment), a nonempty separator-free base name and a
nonempty separator-free dot-free extension, the resolved output path is
the input path with the extension replaced by `.pdf` — same directory,
same base name (e.g. `/x/doc.md` resolves to `/x/doc.pdf`). -/
theorem defaultOutputPath_replaces_extension (segs : List (List Char)) (nm ex : List Char)
    (hsegs : ∀ s ∈ segs, goodSeg s) (hnm : nm ≠ []) (hnmS : '/' ∉ nm)
    (hex : ex ≠ []) (hexS : '/' ∉ ex) (hexD : '.' ∉ ex) :
    resolvedOutputPath (String.mk (pathOf segs (nm ++ '.' :: ex))) none =
      String.mk (pathOf segs (nm ++ ['.', 'p', 'd', 'f'])) := by
  show defaultOutputPath (String.mk (pathOf segs (nm ++ '.' :: ex))) = _
  rw [defaultOutputPath_mk]
  exact congrArg String.mk
    (defaultOutputPath_lists segs nm ex hsegs hnm hnmS hex hexS hexD)

theorem defaultOutputPath_replaces_extension_witness :
    resolvedOutputPath "/x/doc.md" none = "/x/doc.pdf" := by
  have h := defaultOutputPath_replaces_extension [['x']] ['d', 'o', 'c'] ['m', 'd']
    (by intro s hs
        rw [List.mem_singleton] at hs
        subst hs
        exact ⟨by decide, by decide, by decide, by decide⟩)
    (by decide) (by decide) (by decide) (by decide) (by decide)
  exact h
